import Mathlib

/-!
Verification development for the Snowstorm conflict-graph consensus engine and
the chain message router of this repository.

The repository ships the snowstorm test harness (`src/unnamed/part_000`) and the
chain router (`src/snow/networking/router/subnet_router.go`); the engine
implementation itself (the `Factory`-produced graph with `Add`, `RecordPoll`,
`Preferences`, `Finalized`, `Quiesce`, `Issued`) is not among the source files,
so it is modelled below from the specification, with the repository's tests
pinning every observable the model exhibits.
-/

namespace Gecko

/-- Transaction data as the engine sees it: a stable identifier, the set of
input identifiers it consumes, and the identifiers of the transactions it
depends on.  Identifiers are abstracted to naturals (the source compares
fixed-width byte strings by value only). -/
structure TxData where
  txid : Nat
  inputIds : List Nat
  deps : List Nat
deriving DecidableEq

/-- Status of a transaction: Processing, Accepted or Rejected. -/
inductive Status where
  | processing
  | accepted
  | rejected
deriving DecidableEq

/-- Two transactions conflict iff they are distinct and share at least one
input identifier. -/
def conflictsWith (a b : TxData) : Bool :=
  (a.txid != b.txid) && a.inputIds.any (fun i => b.inputIds.contains i)

/-- Two transactions have disjoint input sets. -/
def disjInputs (a b : TxData) : Bool :=
  a.inputIds.all (fun i => !(b.inputIds.contains i))

/-- Modelled from the spec: per-transaction node state of the missing engine
implementation.  `bias` counts polls the transaction has won, `conf` the
consecutive wins ending at `lastVote`, `rogue` records that the transaction
has ever shared an input with another registered transaction (once rogue,
always rogue), `pendingAccept` latches that the transaction has met its
confidence threshold and only waits on dependency acceptance, and `inEdges`
lists the conflicting transactions currently preferred over this one (a
transaction is preferred iff `inEdges` is empty). -/
structure TxNode where
  data : TxData
  bias : Nat
  conf : Nat
  lastVote : Nat
  rogue : Bool
  pendingAccept : Bool
  inEdges : List Nat
deriving DecidableEq

/-- Consensus parameters recognized by the engine. -/
structure Params where
  k : Nat
  alpha : Nat
  betaV : Nat
  betaR : Nat
deriving DecidableEq

/-- Modelled from the spec: state of the missing engine implementation.
`nodes` holds the registered Processing transactions in insertion order;
`acceptedTxs` and `rejectedTxs` record the transactions whose `Accept()` and
`Reject()` hooks have been run, in invocation order. -/
structure Engine where
  alpha : Nat
  betaV : Nat
  betaR : Nat
  pollNum : Nat
  nodes : List TxNode
  acceptedTxs : List TxData
  rejectedTxs : List TxData
deriving DecidableEq

namespace Engine

/-- Modelled from the spec: `Initialize` sets up empty maps and a zero poll
counter, fixing the parameters. -/
def init (p : Params) : Engine :=
  { alpha := p.alpha, betaV := p.betaV, betaR := p.betaR,
    pollNum := 0, nodes := [], acceptedTxs := [], rejectedTxs := [] }

/-- Identifiers of the transactions whose `Accept()` hook has run. -/
def acceptedIds (s : Engine) : List Nat :=
  s.acceptedTxs.map (fun t => t.txid)

/-- Identifiers of the transactions whose `Reject()` hook has run. -/
def rejectedIds (s : Engine) : List Nat :=
  s.rejectedTxs.map (fun t => t.txid)

/-- Identifiers of the registered (Processing) transactions. -/
def nodeIds (s : Engine) : List Nat :=
  s.nodes.map (fun n => n.data.txid)

/-- Status of an identifier as observed through the finalizer hooks. -/
def statusOf (s : Engine) (v : Nat) : Status :=
  if s.acceptedIds.contains v then Status.accepted
  else if s.rejectedIds.contains v then Status.rejected
  else Status.processing

/-- Modelled from the spec: `Issued(tx)` of the missing engine — true iff the
transaction is already decided or its id is registered (test `IssuedTest`
requires an externally accepted, never-added transaction to count as issued). -/
def Issued (s : Engine) (t : TxData) : Bool :=
  s.acceptedIds.contains t.txid || s.rejectedIds.contains t.txid ||
    s.nodeIds.contains t.txid

/-- Modelled from the spec: `Add(tx)` of the missing engine.  An already
issued transaction is left alone; a transaction with no inputs whose
dependencies are all accepted is vacuously accepted without registration;
otherwise the transaction is registered, conflicting registered transactions
(and the newcomer, if contested) are marked rogue, and the newcomer starts
non-preferred against every existing conflicting transaction. -/
def Add (s : Engine) (t : TxData) : Engine :=
  if s.Issued t then s
  else if t.inputIds.isEmpty && t.deps.all (fun d => s.acceptedIds.contains d) then
    { s with acceptedTxs := s.acceptedTxs ++ [t] }
  else
    { s with nodes :=
        (s.nodes.map (fun m =>
          if conflictsWith m.data t then { m with rogue := true } else m))
        ++ [{ data := t, bias := 0, conf := 0, lastVote := 0,
              rogue := s.nodes.any (fun m => conflictsWith m.data t),
              pendingAccept := false,
              inEdges := (s.nodes.filter (fun m => conflictsWith m.data t)).map
                (fun m => m.data.txid) }] }

/-- Modelled from the spec: processing one winning vote.  The winner's bias
grows, its confidence grows when the win is consecutive and resets to one
otherwise, and every edge from a conflicting transaction whose bias is now
strictly smaller is flipped toward that transaction. -/
def voteFor (s : Engine) (v : Nat) : Engine :=
  match s.nodes.find? (fun n => n.data.txid == v) with
  | none => s
  | some n =>
      let confNew := if n.lastVote + 1 == s.pollNum then n.conf + 1 else 1
      let biasNew := n.bias + 1
      let flips : Nat → Bool := fun e =>
        match s.nodes.find? (fun m => m.data.txid == e) with
        | some m => decide (m.bias < biasNew)
        | none => true
      { s with nodes := s.nodes.map (fun m =>
          if m.data.txid == v then
            { m with bias := biasNew, conf := confNew, lastVote := s.pollNum,
                     inEdges := m.inEdges.filter (fun e => !(flips e)) }
          else if n.inEdges.contains m.data.txid && flips m.data.txid then
            { m with inEdges :=
                if m.inEdges.contains v then m.inEdges else m.inEdges ++ [v] }
          else m) }

/-- Modelled from the spec: after all confidence bumps and edge flips of a
poll, a transaction voted in this round that is preferred in every conflict
set and has reached its required threshold (`betaVirtuous` when virtuous,
`betaRogue` when rogue) is latched as pending acceptance. -/
def latchReady (s : Engine) : Engine :=
  { s with nodes := s.nodes.map (fun n =>
      if n.lastVote == s.pollNum && n.inEdges.isEmpty &&
         decide ((if n.rogue then s.betaR else s.betaV) ≤ n.conf) then
        { n with pendingAccept := true }
      else n) }

/-- First registered transaction one of whose dependencies has been rejected. -/
def firstRejectable (s : Engine) : Option TxNode :=
  s.nodes.find? (fun n => n.data.deps.any (fun d => s.rejectedIds.contains d))

/-- First registered transaction latched for acceptance whose dependencies
are all accepted. -/
def firstAcceptable (s : Engine) : Option TxNode :=
  s.nodes.find? (fun n =>
    n.pendingAccept && n.data.deps.all (fun d => s.acceptedIds.contains d))

/-- Modelled from the spec: rejecting a registered transaction removes it
from the graph (and from every remaining edge list) and runs its `Reject()`
hook. -/
def rejectNode (s : Engine) (v : TxNode) : Engine :=
  { s with
    nodes := (s.nodes.filter (fun m => m.data.txid != v.data.txid)).map
      (fun m => { m with inEdges := m.inEdges.filter (fun e => e != v.data.txid) }),
    rejectedTxs := s.rejectedTxs ++ [v.data] }

/-- Modelled from the spec: accepting a registered transaction atomically
rejects every registered transaction sharing an input with it, removes all of
them from the graph, and runs the `Accept()` hook of the accepted transaction. -/
def acceptNode (s : Engine) (v : TxNode) : Engine :=
  let losers := s.nodes.filter (fun m => conflictsWith m.data v.data)
  let removed := v.data.txid :: losers.map (fun m => m.data.txid)
  { s with
    nodes := (s.nodes.filter (fun m => !(removed.contains m.data.txid))).map
      (fun m => { m with inEdges := m.inEdges.filter (fun e => !(removed.contains e)) }),
    rejectedTxs := s.rejectedTxs ++ losers.map (fun m => m.data),
    acceptedTxs := s.acceptedTxs ++ [v.data] }

/-- Modelled from the spec: the acceptance/rejection cascade run to a fixed
point after the vote updates of a poll — dependency rejections first, then the
first acceptable transaction in insertion order, repeatedly. -/
def cascade : Nat → Engine → Engine
  | 0, s => s
  | Nat.succ fuel, s =>
      match s.firstRejectable with
      | some v => cascade fuel (s.rejectNode v)
      | none =>
          match s.firstAcceptable with
          | some v => cascade fuel (s.acceptNode v)
          | none => s

/-- Modelled from the spec: `RecordPoll(bag)` of the missing engine.  The poll
counter is incremented first; ids meeting the `alpha` threshold are scored;
then readiness is latched and the acceptance cascade runs to a fixed point. -/
def RecordPoll (s : Engine) (bag : List (Nat × Nat)) : Engine :=
  let s1 := { s with pollNum := s.pollNum + 1 }
  let winners := (bag.filter (fun p => decide (s.alpha ≤ p.2))).map (fun p => p.1)
  let s2 := winners.foldl voteFor s1
  let s3 := s2.latchReady
  cascade s3.nodes.length s3

/-- Modelled from the spec: `Preferences()` — the registered transactions that
are preferred in every conflict set they belong to, in insertion order. -/
def Preferences (s : Engine) : List Nat :=
  (s.nodes.filter (fun n => n.inEdges.isEmpty)).map (fun n => n.data.txid)

/-- Modelled from the spec: `Finalized()` — no Processing transaction remains
registered. -/
def Finalized (s : Engine) : Bool :=
  s.nodes.isEmpty

/-- Modelled from the spec: the virtuous transactions that still require
polling: registered, never contested, and not yet latched for acceptance. -/
def virtuousVoting (s : Engine) : List Nat :=
  (s.nodes.filter (fun n => !n.rogue && !n.pendingAccept)).map
    (fun n => n.data.txid)

/-- Modelled from the spec: `Quiesce()` — true iff no virtuous transaction is
still awaiting polls (test `VirtuousDependsOnRogueTest` requires a virtuous
transaction that has met its threshold and only waits on a dependency not to
block quiescence). -/
def Quiesce (s : Engine) : Bool :=
  s.nodes.all (fun n => n.rogue || n.pendingAccept)

/-- Transaction identifiers of `virtuousSet` exactly as the specification
words it: every conflict set of the transaction has exactly one member and
all of its dependencies are Processing or Accepted. -/
def specVirtuousIds (s : Engine) : List Nat :=
  (s.nodes.filter (fun n =>
    (s.nodes.all (fun m =>
      m.data.txid == n.data.txid || !(conflictsWith m.data n.data))) &&
    n.data.deps.all (fun d => !(s.rejectedIds.contains d)))).map
    (fun n => n.data.txid)

/-- Models a transaction's `Accept()` hook being invoked directly by the
surrounding test, outside any engine operation (as `Blue.Accept()` is in
`IssuedTest`). -/
def externalAccept (s : Engine) (t : TxData) : Engine :=
  { s with acceptedTxs := s.acceptedTxs ++ [t] }

end Engine

/-- An externally driven engine operation: `Add` a transaction or
`RecordPoll` a vote bag (id, count pairs). -/
inductive Op where
  | addTx (t : TxData)
  | poll (bag : List (Nat × Nat))

/-- Run a sequence of engine operations. -/
def Engine.run (s : Engine) : List Op → Engine
  | [] => s
  | Op.addTx t :: ops => (s.Add t).run ops
  | Op.poll b :: ops => (s.RecordPoll b).run ops

/-- A sequence of operations is input-safe when every added transaction's
inputs are disjoint from the inputs of every transaction already accepted at
the moment of the `Add`. -/
def Engine.safeSeq (s : Engine) : List Op → Bool
  | [] => true
  | Op.addTx t :: ops =>
      s.acceptedTxs.all (fun a => disjInputs a t) && (s.Add t).safeSeq ops
  | Op.poll b :: ops => (s.RecordPoll b).safeSeq ops

/-- Safety invariant of the engine: accepted transactions are pairwise
input-disjoint, and every accepted transaction is input-disjoint from every
registered transaction. -/
def Engine.Inv (s : Engine) : Prop :=
  s.acceptedTxs.Pairwise (fun a b => disjInputs a b = true)
  ∧ ∀ a ∈ s.acceptedTxs, ∀ m ∈ s.nodes, disjInputs a m.data = true

/-- A trace of accepted transactions respects dependency order when every
transaction's dependencies occur strictly earlier in the trace (or are among
the identifiers in `acc`). -/
def depOrdered (acc : List Nat) : List TxData → Bool
  | [] => true
  | t :: rest => t.deps.all (fun d => acc.contains d) && depOrdered (t.txid :: acc) rest

/-- The dependency-order invariant of an engine state: the trace of
`Accept()` invocations so far respects dependency order. -/
def Engine.DepInv (s : Engine) : Prop :=
  depOrdered [] s.acceptedTxs = true

/-! Scenario transactions, mirroring `src/unnamed/part_000`: `Red`, `Green`,
`Blue`, `Alpha` consume inputs `X = 4`, `Y = 5`, `Z = 6` as `R-X`, `G-X,Y`,
`B-Y,Z`, `A-Z`; identifiers follow the `ids.Empty` prefixes `0..8` used by
the tests. -/

/-- Red: id 0, consumes input X (4). -/
def RedD : TxData := { txid := 0, inputIds := [4], deps := [] }

/-- Green: id 1, consumes inputs X (4) and Y (5). -/
def GreenD : TxData := { txid := 1, inputIds := [4, 5], deps := [] }

/-- Blue: id 2, consumes inputs Y (5) and Z (6). -/
def BlueD : TxData := { txid := 2, inputIds := [5, 6], deps := [] }

/-- Alpha: id 3, consumes input Z (6). -/
def AlphaD : TxData := { txid := 3, inputIds := [6], deps := [] }

/-- The purple transaction of `AcceptingDependencyTest`: id 7, a unique
input 8, depending on Red. -/
def PurpleDepRed : TxData := { txid := 7, inputIds := [8], deps := [0] }

/-- The purple transaction of `RejectingDependencyTest`: id 7, a unique
input 8, depending on Red and Blue. -/
def PurpleDepRedBlue : TxData := { txid := 7, inputIds := [8], deps := [0, 2] }

/-- The purple transaction of `VacuouslyAcceptedTest`: id 7, no inputs, no
dependencies. -/
def PurpleNoInput : TxData := { txid := 7, inputIds := [], deps := [] }

/-- The first rogue transaction of `VirtuousDependsOnRogueTest`: id 0,
consuming input 3. -/
def RogueOne : TxData := { txid := 0, inputIds := [3], deps := [] }

/-- The second rogue transaction of `VirtuousDependsOnRogueTest`: id 1,
consuming the same input 3. -/
def RogueTwo : TxData := { txid := 1, inputIds := [3], deps := [] }

/-- The virtuous transaction of `VirtuousDependsOnRogueTest`: id 2, a unique
input 4, depending on the first rogue transaction. -/
def VirtTx : TxData := { txid := 2, inputIds := [4], deps := [0] }

/-- Engine state of `LeftoverInputTest` after `Add Red; Add Green`
(parameters `k = alpha = 2`, `betaVirtuous = betaRogue = 1`). -/
def leftoverState0 : Engine :=
  ((Engine.init { k := 2, alpha := 2, betaV := 1, betaR := 1 }).Add RedD).Add GreenD

/-- Engine state of `LeftoverInputTest` after the poll voting Red twice. -/
def leftoverState1 : Engine := leftoverState0.RecordPoll [(0, 2)]

/-- Engine state of `AcceptingDependencyTest` after the three `Add`s
(parameters `k = alpha = 1`, `betaVirtuous = 1`, `betaRogue = 2`). -/
def acceptDepState0 : Engine :=
  (((Engine.init { k := 1, alpha := 1, betaV := 1, betaR := 2 }).Add RedD).Add
    GreenD).Add PurpleDepRed

/-- `AcceptingDependencyTest` after the poll for Green. -/
def acceptDepState1 : Engine := acceptDepState0.RecordPoll [(1, 1)]

/-- `AcceptingDependencyTest` after the poll for Red and purple. -/
def acceptDepState2 : Engine := acceptDepState1.RecordPoll [(0, 1), (7, 1)]

/-- `AcceptingDependencyTest` after the final poll for Red. -/
def acceptDepState3 : Engine := acceptDepState2.RecordPoll [(0, 1)]

/-- Engine state of `RejectingDependencyTest` after the four `Add`s
(parameters `k = alpha = 1`, `betaVirtuous = 1`, `betaRogue = 2`). -/
def rejectDepState0 : Engine :=
  ((((Engine.init { k := 1, alpha := 1, betaV := 1, betaR := 2 }).Add RedD).Add
    GreenD).Add BlueD).Add PurpleDepRedBlue

/-- `RejectingDependencyTest` after the first poll for Green and purple. -/
def rejectDepState1 : Engine := rejectDepState0.RecordPoll [(1, 1), (7, 1)]

/-- `RejectingDependencyTest` after the second poll for Green and purple. -/
def rejectDepState2 : Engine := rejectDepState1.RecordPoll [(1, 1), (7, 1)]

/-- Engine state of `VirtuousDependsOnRogueTest` after the three `Add`s. -/
def virtRogueState0 : Engine :=
  (((Engine.init { k := 1, alpha := 1, betaV := 1, betaR := 2 }).Add RogueOne).Add
    RogueTwo).Add VirtTx

/-- `VirtuousDependsOnRogueTest` after the poll voting the first rogue
transaction and the virtuous transaction. -/
def virtRogueState1 : Engine := virtRogueState0.RecordPoll [(0, 1), (2, 1)]

/-- Engine state of `StringTest` after the four `Add`s (parameters
`k = alpha = 2`, `betaVirtuous = 1`, `betaRogue = 2`). -/
def stringState0 : Engine :=
  ((((Engine.init { k := 2, alpha := 2, betaV := 1, betaR := 2 }).Add RedD).Add
    GreenD).Add BlueD).Add AlphaD

/-- `StringTest` after the poll voting Red twice and Blue twice — the state
in which the test re-issues `Add Blue`. -/
def stringState1 : Engine := stringState0.RecordPoll [(0, 2), (2, 2)]

/-- Engine state of `VacuouslyAcceptedTest` after adding the input-less
purple transaction. -/
def vacuousState : Engine :=
  (Engine.init { k := 1, alpha := 1, betaV := 1, betaR := 2 }).Add PurpleNoInput

/-- A transaction spending input 100, used to exhibit input resurrection. -/
def SpendA : TxData := { txid := 0, inputIds := [100], deps := [] }

/-- A second transaction spending the same input 100, added after the first
one is accepted. -/
def SpendB : TxData := { txid := 1, inputIds := [100], deps := [] }

/-- The input-resurrection run: accept `SpendA`, then add and accept `SpendB`
which spends the input already consumed by the accepted `SpendA`. -/
def resurrectionRun : Engine :=
  Engine.run (Engine.init { k := 1, alpha := 1, betaV := 1, betaR := 1 })
    [Op.addTx SpendA, Op.poll [(0, 1)], Op.addTx SpendB, Op.poll [(1, 1)]]

/-- Two independent transactions on inputs 100 and 101 used as the witness
run for the amended safety claim. -/
def SpendC : TxData := { txid := 1, inputIds := [101], deps := [] }

/-- Witness run for the amended safety claim: two non-conflicting
transactions accepted by one poll each. -/
def safeWitnessOps : List Op :=
  [Op.addTx SpendA, Op.addTx SpendC, Op.poll [(0, 1), (1, 1)]]

/-! The chain message router, embedded from
`src/snow/networking/router/subnet_router.go`.  Each routing method is
modelled by the sequence of externally observable events it performs, in
program order: timeout cancellations against the external timeout manager,
calls into the destination chain's handler, and the debug log emitted when
the chain is not registered. -/

/-- The handler methods a routed message can invoke on a chain. -/
inductive HandlerMsg where
  | getAcceptedFrontier
  | acceptedFrontier
  | getAcceptedFrontierFailed
  | getAccepted
  | acceptedMsg
  | getAcceptedFailed
  | getMsg
  | put
  | getFailed
  | pushQuery
  | pullQuery
  | chits
  | queryFailed
deriving DecidableEq

/-- Externally observable events of one router call. -/
inductive RouterEvent where
  | cancelTimeout (validatorID chainID requestID : Nat)
  | handlerCall (chainID : Nat) (msg : HandlerMsg) (validatorID requestID : Nat)
  | debugDrop (chainID : Nat)
deriving DecidableEq

/-- Whether an event is a call into a chain's consensus engine handler. -/
def RouterEvent.isHandlerCall : RouterEvent → Bool
  | RouterEvent.handlerCall _ _ _ _ => true
  | _ => false

/-- The chain router's routing state: the chain ids registered via
`AddChain`. -/
structure ChainRouter where
  chains : List Nat
deriving DecidableEq

namespace ChainRouter

/-- Embeds `ChainRouter.AcceptedFrontier`: the pending-request timeout for
`(validatorID, chainID, requestID)` is cancelled first, then the message is
forwarded to the chain's handler when the chain is registered, else
debug-logged and dropped. -/
def acceptedFrontier (sr : ChainRouter) (validatorID chainID requestID : Nat) :
    List RouterEvent :=
  RouterEvent.cancelTimeout validatorID chainID requestID ::
    (if sr.chains.contains chainID then
      [RouterEvent.handlerCall chainID HandlerMsg.acceptedFrontier validatorID requestID]
    else
      [RouterEvent.debugDrop chainID])

/-- Embeds `ChainRouter.GetAcceptedFrontierFailed`: cancel, then forward or
drop. -/
def getAcceptedFrontierFailed (sr : ChainRouter) (validatorID chainID requestID : Nat) :
    List RouterEvent :=
  RouterEvent.cancelTimeout validatorID chainID requestID ::
    (if sr.chains.contains chainID then
      [RouterEvent.handlerCall chainID HandlerMsg.getAcceptedFrontierFailed validatorID
        requestID]
    else
      [RouterEvent.debugDrop chainID])

/-- Embeds `ChainRouter.Accepted`: cancel, then forward or drop. -/
def acceptedMsg (sr : ChainRouter) (validatorID chainID requestID : Nat) :
    List RouterEvent :=
  RouterEvent.cancelTimeout validatorID chainID requestID ::
    (if sr.chains.contains chainID then
      [RouterEvent.handlerCall chainID HandlerMsg.acceptedMsg validatorID requestID]
    else
      [RouterEvent.debugDrop chainID])

/-- Embeds `ChainRouter.GetAcceptedFailed`: cancel, then forward or drop. -/
def getAcceptedFailed (sr : ChainRouter) (validatorID chainID requestID : Nat) :
    List RouterEvent :=
  RouterEvent.cancelTimeout validatorID chainID requestID ::
    (if sr.chains.contains chainID then
      [RouterEvent.handlerCall chainID HandlerMsg.getAcceptedFailed validatorID requestID]
    else
      [RouterEvent.debugDrop chainID])

/-- Embeds `ChainRouter.Put` (the `_containerID` payload does not influence
routing): cancel, then forward or drop. -/
def put (sr : ChainRouter) (validatorID chainID requestID _containerID : Nat) :
    List RouterEvent :=
  RouterEvent.cancelTimeout validatorID chainID requestID ::
    (if sr.chains.contains chainID then
      [RouterEvent.handlerCall chainID HandlerMsg.put validatorID requestID]
    else
      [RouterEvent.debugDrop chainID])

/-- Embeds `ChainRouter.GetFailed`: cancel, then forward or drop. -/
def getFailed (sr : ChainRouter) (validatorID chainID requestID : Nat) :
    List RouterEvent :=
  RouterEvent.cancelTimeout validatorID chainID requestID ::
    (if sr.chains.contains chainID then
      [RouterEvent.handlerCall chainID HandlerMsg.getFailed validatorID requestID]
    else
      [RouterEvent.debugDrop chainID])

/-- Embeds `ChainRouter.Chits`: cancel, then forward or drop. -/
def chits (sr : ChainRouter) (validatorID chainID requestID : Nat) :
    List RouterEvent :=
  RouterEvent.cancelTimeout validatorID chainID requestID ::
    (if sr.chains.contains chainID then
      [RouterEvent.handlerCall chainID HandlerMsg.chits validatorID requestID]
    else
      [RouterEvent.debugDrop chainID])

/-- Embeds `ChainRouter.QueryFailed`: cancel, then forward or drop. -/
def queryFailed (sr : ChainRouter) (validatorID chainID requestID : Nat) :
    List RouterEvent :=
  RouterEvent.cancelTimeout validatorID chainID requestID ::
    (if sr.chains.contains chainID then
      [RouterEvent.handlerCall chainID HandlerMsg.queryFailed validatorID requestID]
    else
      [RouterEvent.debugDrop chainID])

/-- Embeds `ChainRouter.GetAcceptedFrontier`, a request-bearing message: no
timeout cancellation, forward or drop. -/
def getAcceptedFrontier (sr : ChainRouter) (validatorID chainID requestID : Nat) :
    List RouterEvent :=
  if sr.chains.contains chainID then
    [RouterEvent.handlerCall chainID HandlerMsg.getAcceptedFrontier validatorID requestID]
  else
    [RouterEvent.debugDrop chainID]

/-- Embeds `ChainRouter.GetAccepted`: no timeout cancellation, forward or
drop. -/
def getAccepted (sr : ChainRouter) (validatorID chainID requestID : Nat) :
    List RouterEvent :=
  if sr.chains.contains chainID then
    [RouterEvent.handlerCall chainID HandlerMsg.getAccepted validatorID requestID]
  else
    [RouterEvent.debugDrop chainID]

/-- Embeds `ChainRouter.Get`: no timeout cancellation, forward or drop. -/
def getMsg (sr : ChainRouter) (validatorID chainID requestID : Nat) :
    List RouterEvent :=
  if sr.chains.contains chainID then
    [RouterEvent.handlerCall chainID HandlerMsg.getMsg validatorID requestID]
  else
    [RouterEvent.debugDrop chainID]

/-- Embeds `ChainRouter.PushQuery` (payload ignored by routing): no timeout
cancellation, forward or drop. -/
def pushQuery (sr : ChainRouter) (validatorID chainID requestID _containerID : Nat) :
    List RouterEvent :=
  if sr.chains.contains chainID then
    [RouterEvent.handlerCall chainID HandlerMsg.pushQuery validatorID requestID]
  else
    [RouterEvent.debugDrop chainID]

/-- Embeds `ChainRouter.PullQuery`: no timeout cancellation, forward or
drop. -/
def pullQuery (sr : ChainRouter) (validatorID chainID requestID _containerID : Nat) :
    List RouterEvent :=
  if sr.chains.contains chainID then
    [RouterEvent.handlerCall chainID HandlerMsg.pullQuery validatorID requestID]
  else
    [RouterEvent.debugDrop chainID]

end ChainRouter

/-! Helper lemmas. -/

theorem disjInputs_iff {a b : TxData} :
    disjInputs a b = true ↔ ∀ i ∈ a.inputIds, i ∉ b.inputIds := by
  simp [disjInputs]

theorem disjInputs_symm {a b : TxData} (h : disjInputs a b = true) :
    disjInputs b a = true := by
  rw [disjInputs_iff] at h ⊢
  intro i hib hia
  exact h i hia hib

theorem disjInputs_of_nil {a b : TxData} (h : a.inputIds = []) :
    disjInputs a b = true := by
  simp [disjInputs, h]

theorem disj_of_not_conflicts {a b : TxData} (h : conflictsWith a b = false)
    (hne : a.txid ≠ b.txid) : disjInputs a b = true := by
  simp [conflictsWith, hne] at h
  rw [disjInputs_iff]
  intro i hia hib
  exact h i hia hib

namespace Engine

theorem inv_of_same {s sNew : Engine}
    (hacc : sNew.acceptedTxs = s.acceptedTxs)
    (hnodes : ∀ m ∈ sNew.nodes, ∃ m0 ∈ s.nodes, m.data = m0.data)
    (h : s.Inv) : sNew.Inv := by
  obtain ⟨hA, hB⟩ := h
  refine ⟨hacc ▸ hA, ?_⟩
  intro a ha m hm
  obtain ⟨m0, hm0, hdm⟩ := hnodes m hm
  rw [hdm]
  exact hB a (hacc ▸ ha) m0 hm0

theorem inv_mapNodes {s : Engine} {f : TxNode → TxNode}
    (hf : ∀ m, (f m).data = m.data) (h : s.Inv) :
    Engine.Inv { s with nodes := s.nodes.map f } := by
  refine ⟨h.1, ?_⟩
  intro a ha m hm
  rw [List.mem_map] at hm
  obtain ⟨m0, hm0, hEq⟩ := hm
  rw [← hEq, hf m0]
  exact h.2 a ha m0 hm0

theorem inv_voteFor {s : Engine} (v : Nat) (h : s.Inv) : (s.voteFor v).Inv := by
  rw [Engine.voteFor]
  cases s.nodes.find? (fun n => n.data.txid == v) with
  | none => exact h
  | some n =>
      refine inv_mapNodes ?_ h
      intro m
      dsimp only
      split
      · rfl
      · split
        · rfl
        · rfl

theorem inv_latchReady {s : Engine} (h : s.Inv) : s.latchReady.Inv := by
  rw [Engine.latchReady]
  refine inv_mapNodes ?_ h
  intro m
  dsimp only
  split <;> split <;> rfl

theorem inv_rejectNode {s : Engine} {v : TxNode} (h : s.Inv) :
    (s.rejectNode v).Inv := by
  refine inv_of_same ?_ ?_ h
  · rfl
  · intro m hm
    simp only [Engine.rejectNode, List.mem_map, List.mem_filter] at hm
    obtain ⟨m0, ⟨hm0, _⟩, hEq⟩ := hm
    exact ⟨m0, hm0, by rw [← hEq]⟩

theorem inv_acceptNode {s : Engine} {v : TxNode} (hv : v ∈ s.nodes)
    (h : s.Inv) : (s.acceptNode v).Inv := by
  obtain ⟨hA, hB⟩ := h
  constructor
  · show (s.acceptedTxs ++ [v.data]).Pairwise _
    rw [List.pairwise_append]
    refine ⟨hA, List.pairwise_singleton _ _, ?_⟩
    intro a ha b hb
    rw [List.mem_singleton] at hb
    subst hb
    exact hB a ha v hv
  · intro a ha m hm
    simp only [Engine.acceptNode, List.mem_map, List.mem_filter] at hm
    obtain ⟨m0, ⟨hm0mem, hm0pred⟩, hEq⟩ := hm
    have hdata : m.data = m0.data := by rw [← hEq]
    rw [hdata]
    rw [Bool.not_eq_true'] at hm0pred
    have hnot : m0.data.txid ∉
        v.data.txid ::
          (s.nodes.filter (fun x => conflictsWith x.data v.data)).map
            (fun x => x.data.txid) := by
      simpa using hm0pred
    rw [List.mem_cons, not_or] at hnot
    obtain ⟨hne, hnotloser⟩ := hnot
    rcases Bool.eq_false_or_eq_true (conflictsWith m0.data v.data) with hcw | hcw
    · exfalso
      exact hnotloser
        (List.mem_map.2 ⟨m0, List.mem_filter.2 ⟨hm0mem, hcw⟩, rfl⟩)
    · rcases List.mem_append.1 ha with haOld | haNew
      · exact hB a haOld m0 hm0mem
      · rw [List.mem_singleton] at haNew
        subst haNew
        exact disjInputs_symm (disj_of_not_conflicts hcw hne)

theorem inv_cascade : ∀ (fuel : Nat) (s : Engine), s.Inv → (Engine.cascade fuel s).Inv
  | 0, _, h => h
  | Nat.succ fuel, s, h => by
      rw [Engine.cascade]
      cases hr : s.firstRejectable with
      | some v => exact inv_cascade fuel _ (inv_rejectNode h)
      | none =>
          cases ha : s.firstAcceptable with
          | some v =>
              have hv : v ∈ s.nodes :=
                List.mem_of_find?_eq_some (by simpa [Engine.firstAcceptable] using ha)
              exact inv_cascade fuel _ (inv_acceptNode hv h)
          | none => exact h

theorem inv_foldVotes : ∀ (ws : List Nat) (s : Engine), s.Inv →
    (ws.foldl Engine.voteFor s).Inv
  | [], _, h => h
  | w :: ws, s, h => inv_foldVotes ws (s.voteFor w) (inv_voteFor w h)

theorem inv_RecordPoll {s : Engine} (bag : List (Nat × Nat)) (h : s.Inv) :
    (s.RecordPoll bag).Inv := by
  rw [Engine.RecordPoll]
  exact inv_cascade _ _ (inv_latchReady (inv_foldVotes _ _ ⟨h.1, h.2⟩))

theorem inv_Add {s : Engine} {t : TxData}
    (hsafe : ∀ a ∈ s.acceptedTxs, disjInputs a t = true) (h : s.Inv) :
    (s.Add t).Inv := by
  rw [Engine.Add]
  split
  · exact h
  · split
    · next hcond =>
        rw [Bool.and_eq_true] at hcond
        have hnil : t.inputIds = [] := by
          simpa using hcond.1
        constructor
        · show (s.acceptedTxs ++ [t]).Pairwise _
          rw [List.pairwise_append]
          refine ⟨h.1, List.pairwise_singleton _ _, ?_⟩
          intro a ha b hb
          rw [List.mem_singleton] at hb
          subst hb
          exact hsafe a ha
        · intro a ha m hm
          rcases List.mem_append.1 ha with haOld | haNew
          · exact h.2 a haOld m hm
          · rw [List.mem_singleton] at haNew
            subst haNew
            exact disjInputs_of_nil hnil
    · refine ⟨h.1, ?_⟩
      intro a ha m hm
      rcases List.mem_append.1 hm with hmOld | hmNew
      · rw [List.mem_map] at hmOld
        obtain ⟨m0, hm0, hEq⟩ := hmOld
        have : m.data = m0.data := by
          rw [← hEq]
          split
          · rfl
          · rfl
        rw [this]
        exact h.2 a ha m0 hm0
      · rw [List.mem_singleton] at hmNew
        subst hmNew
        exact hsafe a ha

theorem inv_init (p : Params) : (Engine.init p).Inv :=
  ⟨List.Pairwise.nil, by intro a ha; exact absurd ha (List.not_mem_nil a)⟩

theorem inv_run : ∀ (ops : List Op) (s : Engine), s.Inv → s.safeSeq ops = true →
    (s.run ops).Inv
  | [], _, h, _ => h
  | Op.addTx t :: ops, s, h, hs => by
      rw [Engine.safeSeq, Bool.and_eq_true] at hs
      refine inv_run ops _ (inv_Add ?_ h) hs.2
      intro a ha
      exact List.all_eq_true.1 hs.1 a ha
  | Op.poll b :: ops, s, h, hs => by
      rw [Engine.safeSeq] at hs
      exact inv_run ops _ (inv_RecordPoll b h) hs

end Engine

theorem depOrdered_append {t : TxData} :
    ∀ (l : List TxData) (acc : List Nat), depOrdered acc l = true →
      (∀ d ∈ t.deps, d ∈ acc ∨ d ∈ l.map (fun x => x.txid)) →
      depOrdered acc (l ++ [t]) = true
  | [], acc, _, hd => by
      simp only [List.nil_append, depOrdered, Bool.and_eq_true]
      refine ⟨List.all_eq_true.2 ?_, trivial⟩
      intro d hdm
      rcases hd d hdm with hmem | hmem
      · simpa using hmem
      · exact absurd hmem (by simp)
  | x :: l, acc, hl, hd => by
      simp only [depOrdered, Bool.and_eq_true] at hl ⊢
      refine ⟨hl.1, depOrdered_append l (x.txid :: acc) hl.2 ?_⟩
      intro d hdm
      rcases hd d hdm with hmem | hmem
      · exact Or.inl (List.mem_cons_of_mem _ hmem)
      · rw [List.map_cons, List.mem_cons] at hmem
        rcases hmem with hmem | hmem
        · exact Or.inl (hmem ▸ List.mem_cons_self _ _)
        · exact Or.inr hmem

namespace Engine

theorem depInv_acceptedEq {s sNew : Engine}
    (hacc : sNew.acceptedTxs = s.acceptedTxs) (h : s.DepInv) : sNew.DepInv := by
  rw [Engine.DepInv, hacc]
  exact h

theorem depInv_append {s : Engine} {t : TxData}
    (hdeps : t.deps.all (fun d => s.acceptedIds.contains d) = true)
    (h : s.DepInv) : depOrdered [] (s.acceptedTxs ++ [t]) = true := by
  refine depOrdered_append s.acceptedTxs [] h ?_
  intro d hdm
  refine Or.inr ?_
  have := List.all_eq_true.1 hdeps d hdm
  simpa [Engine.acceptedIds] using this

theorem depInv_acceptNode {s : Engine} {v : TxNode}
    (hdeps : v.data.deps.all (fun d => s.acceptedIds.contains d) = true)
    (h : s.DepInv) : (s.acceptNode v).DepInv := by
  show depOrdered [] (s.acceptedTxs ++ [v.data]) = true
  exact depInv_append hdeps h

theorem depInv_cascade : ∀ (fuel : Nat) (s : Engine), s.DepInv →
    (Engine.cascade fuel s).DepInv
  | 0, _, h => h
  | Nat.succ fuel, s, h => by
      rw [Engine.cascade]
      cases hr : s.firstRejectable with
      | some v => exact depInv_cascade fuel _ (depInv_acceptedEq rfl h)
      | none =>
          cases ha : s.firstAcceptable with
          | some v =>
              rw [Engine.firstAcceptable] at ha
              have hp := List.find?_some ha
              rw [Bool.and_eq_true] at hp
              exact depInv_cascade fuel _ (depInv_acceptNode hp.2 h)
          | none => exact h

theorem acceptedTxs_voteFor (s : Engine) (v : Nat) :
    (s.voteFor v).acceptedTxs = s.acceptedTxs := by
  rw [Engine.voteFor]
  cases s.nodes.find? (fun n => n.data.txid == v) with
  | none => rfl
  | some n => rfl

theorem acceptedTxs_foldVotes : ∀ (ws : List Nat) (s : Engine),
    (ws.foldl Engine.voteFor s).acceptedTxs = s.acceptedTxs
  | [], _ => rfl
  | w :: ws, s => by
      rw [List.foldl_cons, acceptedTxs_foldVotes ws, acceptedTxs_voteFor]

theorem acceptedTxs_latchReady (s : Engine) :
    s.latchReady.acceptedTxs = s.acceptedTxs := rfl

theorem depInv_RecordPoll {s : Engine} (bag : List (Nat × Nat)) (h : s.DepInv) :
    (s.RecordPoll bag).DepInv := by
  rw [Engine.RecordPoll]
  apply depInv_cascade
  refine depInv_acceptedEq ?_ h
  rw [acceptedTxs_latchReady, acceptedTxs_foldVotes]

theorem depInv_run : ∀ (ops : List Op) (s : Engine), s.DepInv → (s.run ops).DepInv
  | [], _, h => h
  | Op.addTx t :: ops, s, h => by
      refine depInv_run ops _ ?_
      rw [Engine.Add]
      split
      · exact h
      · split
        · next hcond =>
            rw [Bool.and_eq_true] at hcond
            show depOrdered [] (s.acceptedTxs ++ [t]) = true
            exact depInv_append hcond.2 h
        · exact h
  | Op.poll b :: ops, s, h => depInv_run ops _ (depInv_RecordPoll b h)

end Engine


/-! Claim theorems. -/

/-- C1 (counterexample): the safety claim fails as stated — after accepting a
transaction spending input 100, a second transaction spending the same input
100 can be added (its conflict set was deleted with the acceptance) and then
accepted, leaving two Accepted transactions that share an input. -/
theorem c1_counterexample :
    resurrectionRun.acceptedTxs = [SpendA, SpendB] ∧
    resurrectionRun.statusOf 0 = Status.accepted ∧
    resurrectionRun.statusOf 1 = Status.accepted ∧
    SpendA.txid ≠ SpendB.txid ∧
    100 ∈ SpendA.inputIds ∧ 100 ∈ SpendB.inputIds ∧
    disjInputs SpendA SpendB = false := by
  refine ⟨by decide, by decide, by decide, by decide, by decide, by decide, by decide⟩

/-- C1 (amended): after any sequence of `Add` and `RecordPoll` operations in
which no transaction is added that shares an input with an already-Accepted
transaction, no two Accepted transactions share an input. -/
theorem c1_safety_amended (p : Params) (ops : List Op)
    (hsafe : (Engine.init p).safeSeq ops = true) :
    ∀ a ∈ ((Engine.init p).run ops).acceptedTxs,
      ∀ b ∈ ((Engine.init p).run ops).acceptedTxs,
        a.txid ≠ b.txid → disjInputs a b = true := by
  have hinv := Engine.inv_run ops (Engine.init p) (Engine.inv_init p) hsafe
  intro a ha b hb hne
  have hsym : Symmetric (fun a b : TxData => disjInputs a b = true) :=
    fun _ _ hxy => disjInputs_symm hxy
  exact List.Pairwise.forall hsym hinv.1 ha hb
    (fun hEq => hne (congrArg TxData.txid hEq))

/-- Witness for the amended safety claim, at a concrete input-safe run that
accepts two non-conflicting transactions. -/
theorem c1_safety_amended_witness :
    (Engine.init { k := 1, alpha := 1, betaV := 1, betaR := 1 }).safeSeq
        safeWitnessOps = true ∧
    disjInputs SpendA SpendC = true :=
  ⟨by decide,
   c1_safety_amended { k := 1, alpha := 1, betaV := 1, betaR := 1 }
     safeWitnessOps (by decide) SpendA (by decide) SpendC (by decide) (by decide)⟩

/-- C2: in every run of `Add` and `RecordPoll` operations from an initialized
engine, the trace of `Accept()` invocations respects dependency order — a
transaction's `Accept()` runs only after the `Accept()` of each of its
dependencies; and in the `AcceptingDependency` scenario (`k = alpha = 1`,
`betaVirtuous = 1`, `betaRogue = 2`, purple depending on Red), purple is
still Processing after the second poll, the `Accept()` trace is Red before
purple, and the final state is Red Accepted, Green Rejected, purple
Accepted. -/
theorem c2_dependency_order :
    (∀ (p : Params) (ops : List Op),
        depOrdered [] (((Engine.init p).run ops).acceptedTxs) = true)
    ∧ acceptDepState2.statusOf 0 = Status.processing
    ∧ acceptDepState2.statusOf 1 = Status.processing
    ∧ acceptDepState2.statusOf 7 = Status.processing
    ∧ acceptDepState3.acceptedTxs = [RedD, PurpleDepRed]
    ∧ acceptDepState3.statusOf 0 = Status.accepted
    ∧ acceptDepState3.statusOf 1 = Status.rejected
    ∧ acceptDepState3.statusOf 7 = Status.accepted
    ∧ acceptDepState3.Preferences = [] := by
  refine ⟨fun p ops => Engine.depInv_run ops (Engine.init p) rfl,
    by decide, by decide, by decide, by decide, by decide, by decide, by decide,
    by decide⟩

/-- C3 (counterexample): in the `VirtuousDependsOnRogue` scenario all three
transactions are still Processing and `Quiesce()` returns true, yet the
virtuous transaction (singleton conflict set, dependency Processing) is in
the `virtuousSet` exactly as the specification words it — so `Quiesce()` is
not equivalent to that `virtuousSet` being empty. -/
theorem c3_counterexample :
    virtRogueState1.statusOf 0 = Status.processing ∧
    virtRogueState1.statusOf 1 = Status.processing ∧
    virtRogueState1.statusOf 2 = Status.processing ∧
    virtRogueState1.Quiesce = true ∧
    virtRogueState1.specVirtuousIds = [2] := by
  refine ⟨by decide, by decide, by decide, by decide, by decide⟩

/-- C3 (amended): `Quiesce()` is true iff no virtuous transaction still
requires polling — a virtuous transaction that has met `betaVirtuous` and
only waits on dependency acceptance does not block quiescence; in the
concrete scenario all three transactions are Processing and `Quiesce()` is
true, and the `QuiesceTest` sequence behaves as its assertions require. -/
theorem c3_quiesce_amended :
    (∀ s : Engine, s.Quiesce = s.virtuousVoting.isEmpty)
    ∧ virtRogueState1.statusOf 0 = Status.processing
    ∧ virtRogueState1.statusOf 1 = Status.processing
    ∧ virtRogueState1.statusOf 2 = Status.processing
    ∧ virtRogueState1.Quiesce = true
    ∧ (Engine.init { k := 2, alpha := 2, betaV := 1, betaR := 1 }).Quiesce = true
    ∧ ((Engine.init { k := 2, alpha := 2, betaV := 1, betaR := 1 }).Add
        RedD).Quiesce = false
    ∧ (((Engine.init { k := 2, alpha := 2, betaV := 1, betaR := 1 }).Add
        RedD).Add GreenD).Quiesce = true := by
  refine ⟨?_, by decide, by decide, by decide, by decide, by decide, by decide,
    by decide⟩
  intro s
  rw [Engine.Quiesce, Engine.virtuousVoting]
  induction s.nodes with
  | nil => rfl
  | cons n ns ih =>
      rw [List.all_cons, List.filter_cons]
      cases hr : n.rogue <;> cases hp : n.pendingAccept <;>
        simp [hr, hp, ih]

/-- C4: the `LeftoverInput` scenario (`k = alpha = 2`,
`betaVirtuous = betaRogue = 1`) — after adding Red and Green (sharing input
X) the preference set is exactly Red and the engine is not finalized; after
one poll voting Red twice, the preference set is empty, the engine is
finalized, Red is Accepted, and Green is Rejected. -/
theorem c4_leftover_input :
    leftoverState0.Preferences = [0] ∧
    leftoverState0.Finalized = false ∧
    leftoverState1.Preferences = [] ∧
    leftoverState1.Finalized = true ∧
    leftoverState1.statusOf 0 = Status.accepted ∧
    leftoverState1.statusOf 1 = Status.rejected := by
  refine ⟨by decide, by decide, by decide, by decide, by decide, by decide⟩

/-- C5: the `RejectingDependency` scenario (`k = alpha = 1`,
`betaVirtuous = 1`, `betaRogue = 2`, purple depending on Red and Blue) —
after the four `Add`s and two polls voting Green and purple, Red is
Rejected, Green is Accepted, Blue is Rejected, purple is Rejected, and the
preference set is empty. -/
theorem c5_rejecting_dependency :
    rejectDepState2.statusOf 0 = Status.rejected ∧
    rejectDepState2.statusOf 1 = Status.accepted ∧
    rejectDepState2.statusOf 2 = Status.rejected ∧
    rejectDepState2.statusOf 7 = Status.rejected ∧
    rejectDepState2.Preferences = [] := by
  refine ⟨by decide, by decide, by decide, by decide, by decide⟩

/-- C6: a transaction with no inputs whose dependencies are all accepted is
vacuously accepted by `Add` — its `Accept()` hook runs immediately, it is
not registered, and the preference set is unchanged; this vacuous path is
the only way `Add` ever appends to the `Accept()` trace; and in the concrete
`VacuouslyAccepted` scenario purple ends Accepted with empty preferences and
no registration. -/
theorem c6_vacuous_accept :
    (∀ (s : Engine) (t : TxData), s.Issued t = false → t.inputIds = [] →
        t.deps.all (fun d => s.acceptedIds.contains d) = true →
        (s.Add t).acceptedTxs = s.acceptedTxs ++ [t] ∧
        (s.Add t).nodes = s.nodes ∧
        (s.Add t).Preferences = s.Preferences ∧
        (s.Add t).statusOf t.txid = Status.accepted)
    ∧ (∀ (s : Engine) (t : TxData),
        (s.Add t).acceptedTxs = s.acceptedTxs ∨
        ((s.Add t).acceptedTxs = s.acceptedTxs ++ [t] ∧ t.inputIds = [] ∧
          t.deps.all (fun d => s.acceptedIds.contains d) = true))
    ∧ vacuousState.Preferences = []
    ∧ vacuousState.statusOf 7 = Status.accepted
    ∧ vacuousState.nodes = [] := by
  refine ⟨?_, ?_, by decide, by decide, by decide⟩
  · intro s t hIss hnil hdeps
    have hcond : (t.inputIds.isEmpty &&
        t.deps.all (fun d => s.acceptedIds.contains d)) = true := by
      rw [Bool.and_eq_true]
      exact ⟨by simp [hnil], hdeps⟩
    have hAdd : s.Add t = { s with acceptedTxs := s.acceptedTxs ++ [t] } := by
      rw [Engine.Add, hIss]
      simp only [Bool.false_eq_true, if_false, hcond, if_true]
    rw [hAdd]
    refine ⟨rfl, rfl, rfl, ?_⟩
    simp [Engine.statusOf, Engine.acceptedIds]
  · intro s t
    rw [Engine.Add]
    split
    · exact Or.inl rfl
    · split
      · next hcond =>
          rw [Bool.and_eq_true] at hcond
          exact Or.inr ⟨rfl, by simpa using hcond.1, hcond.2⟩
      · exact Or.inl rfl

/-- Witness for the vacuous-acceptance claim at the concrete
`VacuouslyAccepted` input. -/
theorem c6_vacuous_accept_witness :
    (Engine.init { k := 1, alpha := 1, betaV := 1, betaR := 2 }).Issued
        PurpleNoInput = false ∧
    PurpleNoInput.inputIds = [] ∧
    ((Engine.init { k := 1, alpha := 1, betaV := 1, betaR := 2 }).Add
        PurpleNoInput).statusOf 7 = Status.accepted :=
  ⟨by decide, by decide,
   (c6_vacuous_accept.1 (Engine.init { k := 1, alpha := 1, betaV := 1, betaR := 2 })
     PurpleNoInput (by decide) (by decide) (by decide)).2.2.2⟩

/-- C7 (counterexample): duplicate `Add` is not a fatal error — in the
`StringTest` state after one poll, the test re-issues `Add Blue` and the
engine state is unchanged, with the test continuing normally. -/
theorem c7_counterexample :
    stringState1.Issued BlueD = true ∧
    stringState1.Add BlueD = stringState1 ∧
    stringState1.Preferences = [0, 2] := by
  refine ⟨by decide, by decide, by decide⟩

/-- C7 (amended): calling `Add` on a transaction that is already issued is a
silent no-op — the engine returns with its state unchanged, and no failure
is reported. -/
theorem c7_duplicate_add_amended :
    ∀ (s : Engine) (t : TxData), s.Issued t = true → s.Add t = s := by
  intro s t h
  rw [Engine.Add, h]
  rfl

/-- Witness for the duplicate-`Add` no-op claim at a concrete state in which
Red has already been added. -/
theorem c7_duplicate_add_amended_witness :
    ((Engine.init { k := 2, alpha := 2, betaV := 1, betaR := 1 }).Add
        RedD).Issued RedD = true ∧
    ((Engine.init { k := 2, alpha := 2, betaV := 1, betaR := 1 }).Add
          RedD).Add RedD =
      (Engine.init { k := 2, alpha := 2, betaV := 1, betaR := 1 }).Add RedD :=
  ⟨by decide,
   c7_duplicate_add_amended
     ((Engine.init { k := 2, alpha := 2, betaV := 1, betaR := 1 }).Add RedD)
     RedD (by decide)⟩

/-- C8 (counterexample): `Issued` does not return false for every transaction
never passed to `Add` — an engine that has received no `Add` call at all
reports `Issued = true` for Blue once Blue's `Accept()` has been invoked
externally, exactly as `IssuedTest` requires after `Blue.Accept()`. -/
theorem c8_counterexample :
    ((Engine.init { k := 2, alpha := 2, betaV := 1, betaR := 1 }).externalAccept
        BlueD).Issued BlueD = true := by
  decide

/-- C8 (amended): `Issued(tx)` is true iff the transaction is decided
(Accepted or Rejected) or its id is registered in the engine; it is false on
a freshly initialized engine, true immediately after `Add`, and true for an
externally accepted transaction that was never added — matching the
`IssuedTest` sequence. -/
theorem c8_issued_amended :
    (∀ (p : Params) (t : TxData), (Engine.init p).Issued t = false)
    ∧ (∀ (s : Engine) (t : TxData), (s.Add t).Issued t = true)
    ∧ (∀ (s : Engine) (t : TxData),
        s.Issued t = (s.acceptedIds.contains t.txid ||
          s.rejectedIds.contains t.txid || s.nodeIds.contains t.txid))
    ∧ (Engine.init { k := 2, alpha := 2, betaV := 1, betaR := 1 }).Issued
        RedD = false
    ∧ ((Engine.init { k := 2, alpha := 2, betaV := 1, betaR := 1 }).Add
        RedD).Issued RedD = true
    ∧ (((Engine.init { k := 2, alpha := 2, betaV := 1, betaR := 1 }).Add
        RedD).externalAccept BlueD).Issued BlueD = true := by
  refine ⟨?_, ?_, fun _ _ => rfl, by decide, by decide, by decide⟩
  · intro p t
    rfl
  · intro s t
    rw [Engine.Add]
    split
    · next h => exact h
    · split
      · simp [Engine.Issued, Engine.acceptedIds]
      · simp [Engine.Issued, Engine.nodeIds]


/-- C9: for every response-bearing router message (`AcceptedFrontier`,
`Accepted`, `Put`, `Chits` and their `*Failed` variants), the pending-request
timeout identified by `(validatorID, chainID, requestID)` is cancelled first
— before any call into a chain's engine handler — and a message whose chain
is not registered is debug-logged and dropped without invoking any engine. -/
theorem c9_cancel_before_forward :
    ∀ (sr : ChainRouter) (v c r y : Nat),
      ((sr.acceptedFrontier v c r).head? = some (RouterEvent.cancelTimeout v c r)
        ∧ (sr.chains.contains c = false →
            (∀ e ∈ sr.acceptedFrontier v c r, e.isHandlerCall = false)
            ∧ RouterEvent.debugDrop c ∈ sr.acceptedFrontier v c r))
      ∧ ((sr.getAcceptedFrontierFailed v c r).head? =
            some (RouterEvent.cancelTimeout v c r)
        ∧ (sr.chains.contains c = false →
            (∀ e ∈ sr.getAcceptedFrontierFailed v c r, e.isHandlerCall = false)
            ∧ RouterEvent.debugDrop c ∈ sr.getAcceptedFrontierFailed v c r))
      ∧ ((sr.acceptedMsg v c r).head? = some (RouterEvent.cancelTimeout v c r)
        ∧ (sr.chains.contains c = false →
            (∀ e ∈ sr.acceptedMsg v c r, e.isHandlerCall = false)
            ∧ RouterEvent.debugDrop c ∈ sr.acceptedMsg v c r))
      ∧ ((sr.getAcceptedFailed v c r).head? = some (RouterEvent.cancelTimeout v c r)
        ∧ (sr.chains.contains c = false →
            (∀ e ∈ sr.getAcceptedFailed v c r, e.isHandlerCall = false)
            ∧ RouterEvent.debugDrop c ∈ sr.getAcceptedFailed v c r))
      ∧ ((sr.put v c r y).head? = some (RouterEvent.cancelTimeout v c r)
        ∧ (sr.chains.contains c = false →
            (∀ e ∈ sr.put v c r y, e.isHandlerCall = false)
            ∧ RouterEvent.debugDrop c ∈ sr.put v c r y))
      ∧ ((sr.getFailed v c r).head? = some (RouterEvent.cancelTimeout v c r)
        ∧ (sr.chains.contains c = false →
            (∀ e ∈ sr.getFailed v c r, e.isHandlerCall = false)
            ∧ RouterEvent.debugDrop c ∈ sr.getFailed v c r))
      ∧ ((sr.chits v c r).head? = some (RouterEvent.cancelTimeout v c r)
        ∧ (sr.chains.contains c = false →
            (∀ e ∈ sr.chits v c r, e.isHandlerCall = false)
            ∧ RouterEvent.debugDrop c ∈ sr.chits v c r))
      ∧ ((sr.queryFailed v c r).head? = some (RouterEvent.cancelTimeout v c r)
        ∧ (sr.chains.contains c = false →
            (∀ e ∈ sr.queryFailed v c r, e.isHandlerCall = false)
            ∧ RouterEvent.debugDrop c ∈ sr.queryFailed v c r)) := by
  intro sr v c r y
  refine ⟨⟨rfl, ?_⟩, ⟨rfl, ?_⟩, ⟨rfl, ?_⟩, ⟨rfl, ?_⟩, ⟨rfl, ?_⟩, ⟨rfl, ?_⟩,
    ⟨rfl, ?_⟩, ⟨rfl, ?_⟩⟩
  all_goals
    intro h
    have hmem : c ∉ sr.chains := by simpa using h
    constructor <;>
      simp [ChainRouter.acceptedFrontier, ChainRouter.getAcceptedFrontierFailed,
        ChainRouter.acceptedMsg, ChainRouter.getAcceptedFailed, ChainRouter.put,
        ChainRouter.getFailed, ChainRouter.chits, ChainRouter.queryFailed, hmem,
        RouterEvent.isHandlerCall]

/-- Witness for the cancel-before-forward claim: a router validating only
chain 5 receives a `Chits` message for unregistered chain 9 — the trace
starts with the timeout cancellation and contains no engine call. -/
theorem c9_cancel_before_forward_witness :
    ((ChainRouter.mk [5]).chains.contains 9 = false) ∧
    ((ChainRouter.mk [5]).chits 1 9 2).head? =
      some (RouterEvent.cancelTimeout 1 9 2) ∧
    (∀ e ∈ (ChainRouter.mk [5]).chits 1 9 2, e.isHandlerCall = false) :=
  ⟨by decide,
   (c9_cancel_before_forward (ChainRouter.mk [5]) 1 9 2 0).2.2.2.2.2.2.1.1,
   ((c9_cancel_before_forward (ChainRouter.mk [5]) 1 9 2 0).2.2.2.2.2.2.1.2
     (by decide)).1⟩

/-- C10: when the chain of a response-bearing message is not registered, the
timeout for `(validatorID, chainID, requestID)` is still cancelled — the
cancellation precedes the chain lookup, so the full trace of each of the
eight response-bearing methods is exactly the cancellation followed by the
debug-log drop. -/
theorem c10_cancel_on_unknown_chain :
    ∀ (sr : ChainRouter) (v c r y : Nat), sr.chains.contains c = false →
      sr.acceptedFrontier v c r =
          [RouterEvent.cancelTimeout v c r, RouterEvent.debugDrop c]
      ∧ sr.getAcceptedFrontierFailed v c r =
          [RouterEvent.cancelTimeout v c r, RouterEvent.debugDrop c]
      ∧ sr.acceptedMsg v c r =
          [RouterEvent.cancelTimeout v c r, RouterEvent.debugDrop c]
      ∧ sr.getAcceptedFailed v c r =
          [RouterEvent.cancelTimeout v c r, RouterEvent.debugDrop c]
      ∧ sr.put v c r y =
          [RouterEvent.cancelTimeout v c r, RouterEvent.debugDrop c]
      ∧ sr.getFailed v c r =
          [RouterEvent.cancelTimeout v c r, RouterEvent.debugDrop c]
      ∧ sr.chits v c r =
          [RouterEvent.cancelTimeout v c r, RouterEvent.debugDrop c]
      ∧ sr.queryFailed v c r =
          [RouterEvent.cancelTimeout v c r, RouterEvent.debugDrop c] := by
  intro sr v c r y h
  have hmem : c ∉ sr.chains := by simpa using h
  refine ⟨?_, ?_, ?_, ?_, ?_, ?_, ?_, ?_⟩ <;>
    simp [ChainRouter.acceptedFrontier, ChainRouter.getAcceptedFrontierFailed,
      ChainRouter.acceptedMsg, ChainRouter.getAcceptedFailed, ChainRouter.put,
      ChainRouter.getFailed, ChainRouter.chits, ChainRouter.queryFailed, hmem]

/-- Witness for the cancel-on-unknown-chain claim: the router validating only
chain 5 cancels the timeout of a `Put` for unregistered chain 9 and drops the
message. -/
theorem c10_cancel_on_unknown_chain_witness :
    ((ChainRouter.mk [5]).chains.contains 9 = false) ∧
    (ChainRouter.mk [5]).put 1 9 2 0 =
      [RouterEvent.cancelTimeout 1 9 2, RouterEvent.debugDrop 9] :=
  ⟨by decide,
   (c10_cancel_on_unknown_chain (ChainRouter.mk [5]) 1 9 2 0
     (by decide)).2.2.2.2.1⟩

end Gecko
